import Mathlib

/-!
Verification development for the everest repository (resource-oriented
data-access framework).  The definitions below are shallow embeddings of the
Python source under `src/everest/`; components of the repository that are not
under `src/` (the unit-of-work implementation, the specification classes and
the visitor driver) are modelled from the specification document and marked
as such in their doc comments.
-/

namespace Everest

set_option maxRecDepth 8000

/-- Tags for the Python classes appearing in the entity hierarchy.  `Entity`
(src/everest/entities/base.py line 26) is the abstract base; tests derive
concrete subclasses from it (e.g. `_MyEntity` in src/everest/tests/test_uow.py),
and a concrete subclass may itself be subclassed in Python.  We model a minimal
hierarchy with two concrete classes, `myEntitySub` being a Python subclass of
`myEntity`. -/
inductive EntityClass where
  | entityBase
  | myEntity
  | myEntitySub
deriving DecidableEq, Repr

/-- Python subclass relation on the modelled class tags (reflexive, and
`myEntitySub < myEntity < entityBase`). -/
def EntityClass.isSubclassOf : EntityClass → EntityClass → Bool
  | .entityBase, .entityBase => true
  | .myEntity, .myEntity => true
  | .myEntity, .entityBase => true
  | .myEntitySub, .myEntitySub => true
  | .myEntitySub, .myEntity => true
  | .myEntitySub, .entityBase => true
  | _, _ => false

/-- A Python entity instance: its concrete class and its `id` attribute
(Python `None` modelled as `none`).  From `Entity` in
src/everest/entities/base.py (`id = None` class default, set by `__init__`). -/
structure PyEntity where
  cls : EntityClass
  id : Option Int
deriving DecidableEq, Repr

/-- Python `isinstance(obj, cls)`: the object's concrete class equals `cls` or
is a subclass of it. -/
def isinstance (obj : PyEntity) (cls : EntityClass) : Bool :=
  obj.cls.isSubclassOf cls

/-- Translation of `Entity.__eq__` (src/everest/entities/base.py lines 55-58):
`isinstance(other, self.__class__) and self.id == other.id and
not (self.id is None and other.id is None)`.  Python `==` on ids compares
`None` equal to `None` and unequal to any integer, which is the `BEq` on
`Option Int`. -/
def entityEq (self other : PyEntity) : Bool :=
  isinstance other self.cls && self.id == other.id
    && !(self.id == none && other.id == none)

/-- Translation of the `Entity.slug` property (src/everest/entities/base.py
lines 43-49): `None if self.id is None else str(self.id)`. -/
def PyEntity.slug (e : PyEntity) : Option String :=
  e.id.map toString

/-- Entity lifecycle states (`ENTITY_STATES` from everest/repositories/state.py,
which is not under src/).  Modelled from the spec: §3, "EntityState: one of
NEW, CLEAN, DIRTY, DELETED". -/
inductive EntityState where
  | NEW
  | CLEAN
  | DIRTY
  | DELETED
deriving DecidableEq, Repr

/-- Modelled from the spec: the `UnitOfWork` implementation
(everest/repositories/uow.py) is not under src/, only its tests are.  Per spec
§3/§4.2 a unit of work keeps, per registered entity, one current state.
Python identifies entities by object identity; we model an entity identity as
a `Nat` key and the buckets as one association list from entity key to state
(the four per-class buckets of the spec are the fibers of this map). -/
structure UnitOfWork where
  entities : List (Nat × EntityState)
deriving Repr

/-- Current state of an entity registered with the unit of work, `none` if the
entity is not registered. -/
def UnitOfWork.stateOf (uow : UnitOfWork) (e : Nat) : Option EntityState :=
  (uow.entities.find? (fun p => p.1 == e)).map Prod.snd

/-- Modelled from the spec: the legal `mark_*` transition table of §4.2.
Rows are the current state, columns the target; "yes" and "no-op" both
succeed, "no" (DELETED to CLEAN and DELETED to DIRTY) fails. -/
def transitionAllowed : EntityState → EntityState → Bool
  | .DELETED, .CLEAN => false
  | .DELETED, .DIRTY => false
  | _, _ => true

/-- Replace the state recorded for entity `e` by `s`, leaving other entries
unchanged. -/
def UnitOfWork.setState (uow : UnitOfWork) (e : Nat) (s : EntityState) :
    UnitOfWork :=
  { entities := uow.entities.map (fun p => if p.1 == e then (p.1, s) else p) }

/-- Modelled from the spec: `mark_*` on an unregistered entity fails with
`ValueError("Trying to mark an unregistered entity")`; a forbidden transition
fails with `ValueError("Invalid state transition")`; otherwise the entity's
state becomes the target state (spec §4.2). -/
def UnitOfWork.mark (uow : UnitOfWork) (e : Nat) (s : EntityState) :
    Except String UnitOfWork :=
  match uow.stateOf e with
  | none => .error "Trying to mark an unregistered entity."
  | some cur =>
      if transitionAllowed cur s then .ok (uow.setState e s)
      else .error "Invalid state transition."

/-- `UnitOfWork.mark_dirty` (spec §4.2). -/
def UnitOfWork.mark_dirty (uow : UnitOfWork) (e : Nat) :
    Except String UnitOfWork :=
  uow.mark e .DIRTY

/-- `UnitOfWork.mark_new` (spec §4.2). -/
def UnitOfWork.mark_new (uow : UnitOfWork) (e : Nat) :
    Except String UnitOfWork :=
  uow.mark e .NEW

/-- `UnitOfWork.mark_clean` (spec §4.2). -/
def UnitOfWork.mark_clean (uow : UnitOfWork) (e : Nat) :
    Except String UnitOfWork :=
  uow.mark e .CLEAN

/-- `UnitOfWork.mark_deleted` (spec §4.2). -/
def UnitOfWork.mark_deleted (uow : UnitOfWork) (e : Nat) :
    Except String UnitOfWork :=
  uow.mark e .DELETED

theorem stateOf_setState (l : List (Nat × EntityState)) (e : Nat)
    (s : EntityState) (st : EntityState)
    (h : ((l.find? (fun p => p.1 == e)).map Prod.snd) = some st) :
    (((l.map (fun p => if p.1 == e then (p.1, s) else p)).find?
        (fun p => p.1 == e)).map Prod.snd) = some s := by
  induction l with
  | nil => simp at h
  | cons p rest ih =>
      by_cases hp : (p.1 == e) = true
      · simp only [List.map_cons, if_pos hp]
        rw [List.find?_cons_of_pos]
        · rfl
        · exact hp
      · simp only [List.map_cons, if_neg hp]
        simp only [List.find?_cons, hp] at h ⊢
        exact ih h

/-- Concrete unit of work holding one entity (key 0) in state DELETED. -/
def uowDeleted : UnitOfWork := ⟨[(0, .DELETED)]⟩

/-- C1: for every entity registered with a UnitOfWork and currently in state
DELETED, `mark_dirty` fails with a ValueError whose message starts with
"Invalid state transition" (no updated unit of work is produced, so the
entity's registered state is unchanged), while `mark_new` succeeds and the
entity's state becomes NEW. -/
theorem C1_deleted_mark_dirty_fails_mark_new_succeeds
    (uow : UnitOfWork) (e : Nat) (h : uow.stateOf e = some .DELETED) :
    (uow.mark_dirty e = .error "Invalid state transition." ∧
      ("Invalid state transition".data.isPrefixOf
        "Invalid state transition.".data) = true) ∧
    (∃ uow2, uow.mark_new e = .ok uow2 ∧ uow2.stateOf e = some .NEW) := by
  refine ⟨⟨?_, by decide⟩, uow.setState e .NEW, ?_, ?_⟩
  · unfold UnitOfWork.mark_dirty UnitOfWork.mark
    rw [h]
    rfl
  · unfold UnitOfWork.mark_new UnitOfWork.mark
    rw [h]
    rfl
  · exact stateOf_setState uow.entities e .NEW .DELETED h

/-- C1 witness: the theorem applied to a concrete unit of work holding one
DELETED entity. -/
theorem C1_deleted_mark_dirty_fails_mark_new_succeeds_witness :
    (uowDeleted.stateOf 0 = some .DELETED) ∧
    ((uowDeleted.mark_dirty 0 = .error "Invalid state transition." ∧
      ("Invalid state transition".data.isPrefixOf
        "Invalid state transition.".data) = true) ∧
    (∃ uow2, uowDeleted.mark_new 0 = .ok uow2 ∧
      uow2.stateOf 0 = some .NEW)) :=
  ⟨rfl, C1_deleted_mark_dirty_fails_mark_new_succeeds uowDeleted 0 rfl⟩

/-- C2 counterexample: `Entity.__eq__` tests `isinstance(other, self.__class__)`,
which accepts Python subclasses, so an instance of `myEntity` with id 1
compares equal to an instance of the strict subclass `myEntitySub` with the
same id even though the two concrete types differ; the claimed biconditional
("equal exactly when same concrete type, non-null ids, equal ids") is
therefore false at this input. -/
theorem C2_counterexample :
    entityEq ⟨.myEntity, some 1⟩ ⟨.myEntitySub, some 1⟩ = true ∧
    (EntityClass.myEntity = EntityClass.myEntitySub → False) := by
  decide

/-- C2 (amended): `e1 == e2` holds exactly when `e2`'s concrete class equals
`e1`'s class or is a Python subclass of it, both ids are non-null, and the
ids are equal; in particular an entity with id `None` is never equal to any
entity with id `None`, itself included. -/
theorem C2_entity_eq_characterization (c1 c2 : EntityClass)
    (i1 i2 : Option Int) :
    (entityEq ⟨c1, i1⟩ ⟨c2, i2⟩ = true ↔
      (c2.isSubclassOf c1 = true ∧ i1 ≠ none ∧ i2 ≠ none ∧ i1 = i2)) ∧
    entityEq ⟨c1, none⟩ ⟨c2, none⟩ = false ∧
    entityEq ⟨c1, none⟩ ⟨c1, none⟩ = false := by
  refine ⟨?_, ?_, ?_⟩
  · cases i1 <;> cases i2 <;>
      simp [entityEq, isinstance]
  · simp [entityEq, isinstance]
  · simp [entityEq, isinstance]

/-- A domain entity as seen by the aggregate layer: its optional `id` and its
named (integer-valued) attributes.  This is the shape the aggregate code in
src/everest/entities/base.py relies on (`entity.id`, attribute access by
specifications). -/
structure Ent where
  id : Option Int
  attrs : List (String × Int)
deriving DecidableEq, Repr

/-- Attribute lookup on an entity; the `id` attribute is the entity id, any
other name is looked up in the attribute list (`none` when absent). -/
def Ent.attrVal (e : Ent) (a : String) : Option Int :=
  if a == "id" then e.id
  else (e.attrs.find? (fun p => p.1 == a)).map Prod.snd

/-- Modelled from the spec: filter specifications (spec §3/§4.3;
everest/querying/specifications.py is not under src/): atomic equality
comparison on an attribute, and conjunction / disjunction / negation of
sub-specifications. -/
inductive FilterSpec where
  | eqAttr (attr : String) (v : Int)
  | conj (l r : FilterSpec)
  | disj (l r : FilterSpec)
  | neg (s : FilterSpec)
deriving DecidableEq, Repr

/-- Modelled from the spec: `is_satisfied_by` decides whether an entity
satisfies a filter specification (spec §4.4 uses it in `get_by_id`). -/
def FilterSpec.is_satisfied_by : FilterSpec → Ent → Bool
  | .eqAttr a v, e => e.attrVal a == some v
  | .conj l r, e => l.is_satisfied_by e && r.is_satisfied_by e
  | .disj l r, e => l.is_satisfied_by e || r.is_satisfied_by e
  | .neg s, e => !(s.is_satisfied_by e)

/-- Order specifications (spec §3/§4.3): ascending / descending on an
attribute, and conjunction (the order spec classes themselves are not under
src/ and are modelled from the spec; the visitors translating them are in
src/everest/querying/ordering.py). -/
inductive OrderSpec where
  | asc (attr : String)
  | desc (attr : String)
  | conj (l r : OrderSpec)
deriving DecidableEq, Repr

/-- First entity in the store whose id equals the given key: the session /
`_query_by_id` lookup backing `RootAggregate.get_by_id` (the session and the
backend `_query_by_id` are abstract in src; modelled as a first-match scan of
the backing store). -/
def lookupById (store : List Ent) (k : Int) : Option Ent :=
  store.find? (fun e => e.id == some k)

/-- First entity in the store whose slug (string form of the id, per
`Entity.slug`) equals the given string; backs `get_by_slug`, which is
backend-abstract in src and modelled from the spec. -/
def lookupBySlug (store : List Ent) (s : String) : Option Ent :=
  store.find? (fun e => (e.id.map toString) == some s)

/-- State of a `RootAggregate` (src/everest/entities/base.py lines 297-400):
the identities of the entity class, session factory and repository it was
constructed with, the entities reachable through the session (the backing
store), and the three inherited `Aggregate` slots (filter / order / slice). -/
structure RootAggState where
  entityClass : Nat
  sessionFactory : Nat
  repository : Nat
  store : List Ent
  filterSpec : Option FilterSpec
  orderSpec : Option OrderSpec
  sliceKey : Option (Nat × Nat)
deriving DecidableEq, Repr

/-- Translation of `Aggregate._get_filtered_query` (src/everest/entities/base.py
lines 264-273) for the in-memory expression kind: the source query yields the
backing store; when a filter specification is set, the in-memory filter
visitor's pure function (spec §4.3) filters the sequence; the order
specification and slice key play no part. -/
def RootAggState.getFilteredQuery (s : RootAggState) : List Ent :=
  match s.filterSpec with
  | none => s.store
  | some f => s.store.filter (fun e => f.is_satisfied_by e)

/-- Translation of `Aggregate.count` (src/everest/entities/base.py lines
119-127): `self._get_filtered_query(None).count()`. -/
def RootAggState.count (s : RootAggState) : Nat :=
  s.getFilteredQuery.length

/-- The `filter` property setter (src/everest/entities/base.py lines 224-228). -/
def RootAggState.set_filter (s : RootAggState) (f : Option FilterSpec) :
    RootAggState :=
  { s with filterSpec := f }

/-- The `order` property setter (src/everest/entities/base.py lines 234-238). -/
def RootAggState.set_order (s : RootAggState) (o : Option OrderSpec) :
    RootAggState :=
  { s with orderSpec := o }

/-- The `slice` property setter (src/everest/entities/base.py lines 244-249). -/
def RootAggState.set_slice (s : RootAggState) (k : Option (Nat × Nat)) :
    RootAggState :=
  { s with sliceKey := k }

/-- Translation of `RootAggregate.get_by_id` (src/everest/entities/base.py
lines 346-354): session lookup with `_query_by_id` fallback (both modelled as
`lookupById` over the backing store), then the active filter specification
turns a looked-up entity that fails it into a not-found `None`. -/
def RootAggState.get_by_id (s : RootAggState) (k : Int) : Option Ent :=
  let ent0 := lookupById s.store k
  let ent1 := match ent0 with
    | none => lookupById s.store k
    | some e => some e
  match ent1 with
  | none => none
  | some e =>
      match s.filterSpec with
      | none => some e
      | some f => if f.is_satisfied_by e then some e else none

/-- `get_by_slug` on a root aggregate: abstract in src (backend-specific);
modelled from the spec ("direct lookup short-circuiting the full query"; if
the looked-up entity fails the active filter spec, acts as not-found). -/
def RootAggState.get_by_slug (s : RootAggState) (slg : String) : Option Ent :=
  match lookupBySlug s.store slg with
  | none => none
  | some e =>
      match s.filterSpec with
      | none => some e
      | some f => if f.is_satisfied_by e then some e else none

/-- Observable effect of `RootAggregate.add` on the backing store: the
traversal collaborators (everest/entities/traversal.py, not under src/) are
modelled from the spec as registering the entity so that it becomes part of
the aggregate's store. -/
def RootAggState.addEnt (s : RootAggState) (e : Ent) : RootAggState :=
  { s with store := s.store ++ [e] }

/-- Observable effect of `RootAggregate.remove` on the backing store
(modelled from the spec, like `RootAggState.addEnt`). -/
def RootAggState.removeEnt (s : RootAggState) (e : Ent) : RootAggState :=
  { s with store := s.store.erase e }

/-- Translation of `RootAggregate.clone` (src/everest/entities/base.py lines
337-344): `Aggregate.clone` copies the three spec slots onto a fresh instance
and the override additionally copies the entity class, session factory and
repository references; the clone therefore reaches the same backing store. -/
def RootAggState.clone (s : RootAggState) : RootAggState :=
  { entityClass := s.entityClass
    sessionFactory := s.sessionFactory
    repository := s.repository
    store := s.store
    filterSpec := s.filterSpec
    orderSpec := s.orderSpec
    sliceKey := s.sliceKey }

/-- Modelled from the spec: the relationship cascade bitmask with flags ADD
and DELETE (`CASCADES` in everest/constants.py is not under src/; spec §9
recommends the explicit flag-set view used here). -/
structure Cascade where
  add : Bool
  delete : Bool
deriving DecidableEq, Repr

/-- Modelled from the spec: the relationship collaborator consulted by
`RelationshipAggregate` (spec §6): its own membership (a collection attribute
or reference on the owning entity), its membership specification, and its
descriptor's cascade bitmask. -/
structure Relationship where
  members : List Ent
  spec : FilterSpec
  cascade : Cascade
deriving DecidableEq, Repr

/-- `relationship.add(entity)`: appends to the relationship's own membership
(spec §4.4: "append ... to a collection attribute, or set ... a reference"). -/
def Relationship.addEnt (r : Relationship) (e : Ent) : Relationship :=
  { r with members := r.members ++ [e] }

/-- `relationship.remove(entity)`: removes the entity from the relationship's
own membership. -/
def Relationship.removeEnt (r : Relationship) (e : Ent) : Relationship :=
  { r with members := r.members.erase e }

/-- State of a `RelationshipAggregate` (src/everest/entities/base.py lines
403-467).  `__init__` sets the root aggregate and relationship references;
they are `Option`s because `Aggregate.clone` creates an instance via
`__new__` on which those attributes are never set (accessing them on such an
instance raises AttributeError, modelled as `none`). -/
structure RelAggState where
  rootAgg : Option RootAggState
  relationship : Option Relationship
  filterSpec : Option FilterSpec
  orderSpec : Option OrderSpec
  sliceKey : Option (Nat × Nat)
deriving DecidableEq, Repr

/-- The filter property of a relationship aggregate
(src/everest/entities/base.py lines 456-467): the relationship's membership
specification, conjoined with the user filter slot when one is set. -/
def relFilterProperty (rel : Relationship) (uf : Option FilterSpec) :
    FilterSpec :=
  match uf with
  | none => rel.spec
  | some f => .conj rel.spec f

/-- Events recording which collaborator mutations
`RelationshipAggregate.add` / `remove` perform, in order. -/
inductive AggEvent where
  | relAdd (e : Ent)
  | relRemove (e : Ent)
  | rootAdd (e : Ent)
  | rootRemove (e : Ent)
deriving DecidableEq, Repr

/-- The add-cascade guard of `RelationshipAggregate.add`
(src/everest/entities/base.py lines 444-446):
`cascade & CASCADES.ADD and (entity.id is None or
root.get_by_id(entity.id) is None)`. -/
def addCascades (rel : Relationship) (root : RootAggState) (e : Ent) : Bool :=
  rel.cascade.add &&
    (match e.id with
     | none => true
     | some i => (root.get_by_id i).isNone)

/-- The delete-cascade guard of `RelationshipAggregate.remove`
(src/everest/entities/base.py lines 450-452):
`cascade & CASCADES.DELETE and (not entity.id is None and
not root.get_by_id(entity.id) is None)`. -/
def deleteCascades (rel : Relationship) (root : RootAggState) (e : Ent) :
    Bool :=
  rel.cascade.delete &&
    (match e.id with
     | none => false
     | some i => (root.get_by_id i).isSome)

/-- Translation of `RelationshipAggregate.add` (src/everest/entities/base.py
lines 442-447): first `self._relationship.add(entity)`, then, when the
cascade guard holds, `self._root_aggregate.add(entity)`.  The returned trace
lists the mutations in the order the code performs them; `none` models the
AttributeError raised when the instance attributes were never set. -/
def RelAggState.add (s : RelAggState) (e : Ent) :
    Option (RelAggState × List AggEvent) :=
  match s.relationship, s.rootAgg with
  | some rel, some root =>
      let s1 : RelAggState := { s with relationship := some (rel.addEnt e) }
      if addCascades rel root e then
        some ({ s1 with rootAgg := some (root.addEnt e) },
              [.relAdd e, .rootAdd e])
      else
        some (s1, [.relAdd e])
  | _, _ => none

/-- Translation of `RelationshipAggregate.remove` (src/everest/entities/base.py
lines 449-454): first, when the cascade guard holds,
`self._root_aggregate.remove(entity)`, and only then
`self._relationship.remove(entity)`. -/
def RelAggState.remove (s : RelAggState) (e : Ent) :
    Option (RelAggState × List AggEvent) :=
  match s.relationship, s.rootAgg with
  | some rel, some root =>
      if deleteCascades rel root e then
        let s1 : RelAggState := { s with rootAgg := some (root.removeEnt e) }
        some ({ s1 with relationship := some (rel.removeEnt e) },
              [.rootRemove e, .relRemove e])
      else
        some ({ s with relationship := some (rel.removeEnt e) },
              [.relRemove e])
  | _, _ => none

/-- Translation of `RelationshipAggregate.get_by_id`
(src/everest/entities/base.py lines 413-417): the root aggregate's lookup,
then the relationship aggregate's filter property turns a non-member into a
not-found `None`.  The outer `Option` models AttributeError on an
uninitialized instance. -/
def RelAggState.get_by_id (s : RelAggState) (k : Int) :
    Option (Option Ent) :=
  match s.rootAgg, s.relationship with
  | some root, some rel =>
      some (match root.get_by_id k with
            | none => none
            | some e =>
                if (relFilterProperty rel s.filterSpec).is_satisfied_by e
                then some e else none)
  | _, _ => none

/-- Translation of `RelationshipAggregate.get_by_slug`
(src/everest/entities/base.py lines 419-423), analogous to `get_by_id`. -/
def RelAggState.get_by_slug (s : RelAggState) (slg : String) :
    Option (Option Ent) :=
  match s.rootAgg, s.relationship with
  | some root, some rel =>
      some (match root.get_by_slug slg with
            | none => none
            | some e =>
                if (relFilterProperty rel s.filterSpec).is_satisfied_by e
                then some e else none)
  | _, _ => none

/-- Translation of `Aggregate.count` as inherited by `RelationshipAggregate`:
`query()` delegates to the root aggregate's query and the overridden `filter`
property always contributes the relationship specification
(src/everest/entities/base.py lines 119-127, 425-426, 456-467). -/
def RelAggState.count (s : RelAggState) : Option Nat :=
  match s.rootAgg, s.relationship with
  | some root, some rel =>
      some ((root.store.filter
        (fun e => (relFilterProperty rel s.filterSpec).is_satisfied_by e)).length)
  | _, _ => none

/-- Translation of `Aggregate.clone` as inherited (not overridden) by
`RelationshipAggregate` (src/everest/entities/base.py lines 93-103): a fresh
instance via `__new__` on which only the three spec slots are set; the
`_root_aggregate` and `_relationship` attributes of the clone are never
assigned. -/
def RelAggState.clone (s : RelAggState) : RelAggState :=
  { rootAgg := none
    relationship := none
    filterSpec := s.filterSpec
    orderSpec := s.orderSpec
    sliceKey := s.sliceKey }

/-- The backing query of a relationship aggregate
(`RelationshipAggregate.query`, src/everest/entities/base.py lines 425-426):
delegates to the root aggregate; `none` models AttributeError on an
uninitialized instance. -/
def RelAggState.query (s : RelAggState) : Option (List Ent) :=
  s.rootAgg.map (fun r => r.store)

/-- The `entity_class` property of a relationship aggregate
(src/everest/entities/base.py lines 428-430): delegates to the root
aggregate; `none` models AttributeError on an uninitialized instance. -/
def RelAggState.entity_class (s : RelAggState) : Option Nat :=
  s.rootAgg.map (fun r => r.entityClass)

/-- The `order` setter inherited by `RelationshipAggregate`
(src/everest/entities/base.py lines 234-238). -/
def RelAggState.set_order (s : RelAggState) (o : Option OrderSpec) :
    RelAggState :=
  { s with orderSpec := o }

/-- The `slice` setter inherited by `RelationshipAggregate`
(src/everest/entities/base.py lines 244-249). -/
def RelAggState.set_slice (s : RelAggState) (k : Option (Nat × Nat)) :
    RelAggState :=
  { s with sliceKey := k }

/-- C3: `count()` counts the entities matching the current filter
specification only: it is invariant under any change of the order
specification or slice key (for root and relationship aggregates alike) and
equals the number of entities the source query yields after applying the
filter, independent of pagination. -/
theorem C3_count_filter_only (ec sf rp : Nat) (store : List Ent)
    (f : Option FilterSpec) (o o2 : Option OrderSpec)
    (k k2 : Option (Nat × Nat)) (rel : Relationship)
    (uf : Option FilterSpec) :
    ((RootAggState.mk ec sf rp store f o k).set_order o2).count
        = (RootAggState.mk ec sf rp store f o k).count ∧
    ((RootAggState.mk ec sf rp store f o k).set_slice k2).count
        = (RootAggState.mk ec sf rp store f o k).count ∧
    (RootAggState.mk ec sf rp store f o k).count
        = (store.filter
            (fun e => (f.map (fun fs => fs.is_satisfied_by e)).getD true)).length ∧
    ((RelAggState.mk (some (RootAggState.mk ec sf rp store f o k)) (some rel)
        uf o k).set_order o2).count
        = (RelAggState.mk (some (RootAggState.mk ec sf rp store f o k))
            (some rel) uf o k).count ∧
    ((RelAggState.mk (some (RootAggState.mk ec sf rp store f o k)) (some rel)
        uf o k).set_slice k2).count
        = (RelAggState.mk (some (RootAggState.mk ec sf rp store f o k))
            (some rel) uf o k).count ∧
    (RelAggState.mk (some (RootAggState.mk ec sf rp store f o k)) (some rel)
        uf o k).count
        = some ((store.filter
            (fun e => (relFilterProperty rel uf).is_satisfied_by e)).length) := by
  refine ⟨rfl, rfl, ?_, rfl, rfl, rfl⟩
  cases f with
  | none => simp [RootAggState.count, RootAggState.getFilteredQuery]
  | some fs => simp [RootAggState.count, RootAggState.getFilteredQuery]

/-- C4: `RelationshipAggregate.add` always adds the entity to the
relationship's own membership, and propagates the add to the root aggregate
exactly when the cascade bitmask has the ADD flag and the entity is not
already present in the root aggregate (its id is `None`, or no entity with
its id is found there). -/
theorem C4_rel_add_cascade (root : RootAggState) (rel : Relationship)
    (uf : Option FilterSpec) (o : Option OrderSpec) (k : Option (Nat × Nat))
    (e : Ent) :
    ((RelAggState.mk (some root) (some rel) uf o k).add e).map
        (fun pr => pr.1.relationship) = some (some (rel.addEnt e)) ∧
    ((RelAggState.mk (some root) (some rel) uf o k).add e).map
        (fun pr => pr.1.rootAgg)
      = some (some (if addCascades rel root e then root.addEnt e else root)) ∧
    (addCascades rel root e = true ↔
      (rel.cascade.add = true ∧
        (e.id = none ∨ ∃ i, e.id = some i ∧ root.get_by_id i = none))) := by
  refine ⟨?_, ?_, ?_⟩
  · simp only [RelAggState.add]
    split <;> rfl
  · simp only [RelAggState.add]
    split <;> simp_all
  · unfold addCascades
    cases h : e.id <;> simp [h, Option.isNone_iff_eq_none]

/-- C5 counterexample: with a DELETE cascade and the entity present in the
root aggregate, `RelationshipAggregate.remove` performs the root-aggregate
removal first and mutates the relationship's own membership only afterwards
— the opposite of the claimed order (relationship first, then root). -/
theorem C5_counterexample :
    ((RelAggState.mk
        (some (RootAggState.mk 0 0 0 [Ent.mk (some 1) []] none none none))
        (some (Relationship.mk [Ent.mk (some 1) []] (.eqAttr "a" 0)
          (Cascade.mk true true)))
        none none none).remove (Ent.mk (some 1) [])).map Prod.snd
      = some [AggEvent.rootRemove (Ent.mk (some 1) []),
              AggEvent.relRemove (Ent.mk (some 1) [])] ∧
    AggEvent.rootRemove (Ent.mk (some 1) [])
      ≠ AggEvent.relRemove (Ent.mk (some 1) []) := by
  constructor
  · rfl
  · simp

/-- C5 (amended): `add` first mutates the relationship's own membership and
only afterwards conditionally propagates to the root aggregate, while
`remove` conditionally propagates the removal to the root aggregate first and
mutates the relationship's own membership only afterwards. -/
theorem C5_mutation_order (root : RootAggState) (rel : Relationship)
    (uf : Option FilterSpec) (o : Option OrderSpec) (k : Option (Nat × Nat))
    (e : Ent) :
    ((RelAggState.mk (some root) (some rel) uf o k).add e).map Prod.snd
        = some ([AggEvent.relAdd e] ++
            (if addCascades rel root e then [AggEvent.rootAdd e] else [])) ∧
    ((RelAggState.mk (some root) (some rel) uf o k).remove e).map Prod.snd
        = some ((if deleteCascades rel root e then [AggEvent.rootRemove e]
                 else []) ++ [AggEvent.relRemove e]) := by
  constructor
  · simp only [RelAggState.add]
    split <;> simp_all
  · simp only [RelAggState.remove]
    split <;> simp_all

/-- C6: a looked-up entity that fails the active filter specification is
reported as not-found (`None`), not as an error; with no filter set the
looked-up entity is returned as found.  Covers `RootAggregate.get_by_id` and
`RelationshipAggregate.get_by_id` / `get_by_slug` (whose active filter always
contains the relationship specification). -/
theorem C6_lookup_heeds_filter (root : RootAggState) (rel : Relationship)
    (uf : Option FilterSpec) (o : Option OrderSpec) (kk : Option (Nat × Nat))
    (k : Int) (slg : String) (e : Ent) :
    (root.filterSpec = none → root.get_by_id k = lookupById root.store k) ∧
    (∀ f, root.filterSpec = some f → lookupById root.store k = some e →
      f.is_satisfied_by e = false → root.get_by_id k = none) ∧
    (∀ f, root.filterSpec = some f → lookupById root.store k = some e →
      f.is_satisfied_by e = true → root.get_by_id k = some e) ∧
    (root.get_by_id k = some e →
      (relFilterProperty rel uf).is_satisfied_by e = false →
      (RelAggState.mk (some root) (some rel) uf o kk).get_by_id k
        = some none) ∧
    (root.get_by_id k = some e →
      (relFilterProperty rel uf).is_satisfied_by e = true →
      (RelAggState.mk (some root) (some rel) uf o kk).get_by_id k
        = some (some e)) ∧
    (root.get_by_slug slg = some e →
      (relFilterProperty rel uf).is_satisfied_by e = false →
      (RelAggState.mk (some root) (some rel) uf o kk).get_by_slug slg
        = some none) ∧
    (root.get_by_slug slg = some e →
      (relFilterProperty rel uf).is_satisfied_by e = true →
      (RelAggState.mk (some root) (some rel) uf o kk).get_by_slug slg
        = some (some e)) := by
  refine ⟨?_, ?_, ?_, ?_, ?_, ?_, ?_⟩
  · intro hf
    cases hl : lookupById root.store k <;>
      simp [RootAggState.get_by_id, hl, hf]
  · intro f hf hl hs
    simp [RootAggState.get_by_id, hl, hf, hs]
  · intro f hf hl hs
    simp [RootAggState.get_by_id, hl, hf, hs]
  · intro hg hs
    simp [RelAggState.get_by_id, hg, hs]
  · intro hg hs
    simp [RelAggState.get_by_id, hg, hs]
  · intro hg hs
    simp [RelAggState.get_by_slug, hg, hs]
  · intro hg hs
    simp [RelAggState.get_by_slug, hg, hs]

/-- Entity used in the C6 witness. -/
def entC6 : Ent := ⟨some 1, [("a", 5)]⟩

/-- Filter used in the C6 witness; `entC6` fails it. -/
def filterC6 : FilterSpec := .eqAttr "a" 7

/-- Root aggregate (with active filter) used in the C6 witness. -/
def rootC6 : RootAggState := ⟨0, 0, 0, [entC6], some filterC6, none, none⟩

/-- Root aggregate (no filter) used in the C6 witness. -/
def rootC6b : RootAggState := ⟨0, 0, 0, [entC6], none, none, none⟩

/-- Relationship used in the C6 witness; `entC6` fails its specification. -/
def relC6 : Relationship := ⟨[], .eqAttr "a" 9, ⟨true, false⟩⟩

/-- C6 witness: concrete store in which the looked-up entity exists but fails
the active filter of the root aggregate (and, separately, the relationship
specification of a relationship aggregate), so the lookups report not-found. -/
theorem C6_lookup_heeds_filter_witness :
    (lookupById rootC6.store 1 = some entC6) ∧
    (filterC6.is_satisfied_by entC6 = false) ∧
    (rootC6.get_by_id 1 = none) ∧
    (rootC6b.get_by_id 1 = some entC6) ∧
    ((relFilterProperty relC6 none).is_satisfied_by entC6 = false) ∧
    ((RelAggState.mk (some rootC6b) (some relC6) none none none).get_by_id 1
      = some none) :=
  ⟨rfl, by decide,
   (C6_lookup_heeds_filter rootC6 relC6 none none none 1 "1" entC6).2.1
     filterC6 rfl rfl (by decide),
   rfl, by decide,
   (C6_lookup_heeds_filter rootC6b relC6 none none none 1 "1" entC6).2.2.2.1
     rfl (by decide)⟩

/-- Relationship aggregate used in the C7 counterexample. -/
def relAggC7 : RelAggState :=
  ⟨some ⟨3, 4, 5, [Ent.mk (some 1) []], none, none, none⟩,
   some ⟨[], .eqAttr "a" 0, ⟨true, false⟩⟩,
   some (.eqAttr "b" 1), some (.asc "c"), some (0, 1)⟩

/-- C7 counterexample: the clone of a relationship aggregate does not query
the same backing store and entity class as the original — its root-aggregate
reference was never set by `Aggregate.clone`, so `query()` and
`entity_class` raise AttributeError (modelled as `none`) instead of reaching
the original's store. -/
theorem C7_counterexample :
    relAggC7.clone.entity_class = none ∧
    relAggC7.entity_class = some 3 ∧
    relAggC7.clone.query = none ∧
    relAggC7.query = some [Ent.mk (some 1) []] ∧
    relAggC7.clone.entity_class ≠ relAggC7.entity_class ∧
    relAggC7.clone.query ≠ relAggC7.query := by
  refine ⟨rfl, rfl, rfl, rfl, ?_, ?_⟩ <;> decide

/-- C7 (amended): `RootAggregate.clone` copies the filter, order and slice
slots and shares the entity class, session factory and repository (hence the
backing store) with the original; `RelationshipAggregate` inherits the base
`Aggregate.clone`, which copies only the three spec slots onto a fresh
instance and leaves the root-aggregate and relationship references unset, so
the clone reaches no backing store or entity class.  (Cloning produces a new
object, so configuring a clone cannot affect the original's slots.) -/
theorem C7_clone_characterization (s : RootAggState) (t : RelAggState) :
    (s.clone.filterSpec = s.filterSpec ∧ s.clone.orderSpec = s.orderSpec ∧
     s.clone.sliceKey = s.sliceKey ∧ s.clone.entityClass = s.entityClass ∧
     s.clone.sessionFactory = s.sessionFactory ∧
     s.clone.repository = s.repository ∧ s.clone.store = s.store) ∧
    (t.clone.filterSpec = t.filterSpec ∧ t.clone.orderSpec = t.orderSpec ∧
     t.clone.sliceKey = t.sliceKey ∧ t.clone.rootAgg = none ∧
     t.clone.relationship = none ∧ t.clone.entity_class = none ∧
     t.clone.query = none) := by
  refine ⟨⟨rfl, rfl, rfl, rfl, rfl, rfl, rfl⟩,
          ⟨rfl, rfl, rfl, rfl, rfl, rfl, rfl⟩⟩

/-- A Python value produced by the in-memory (key-function) order visitor's
artifacts: an entity, a tuple, or a list.  Needed because
`KeyFunctionOrderSpecificationVisitor._conjunction_op`
(src/everest/querying/ordering.py lines 235-237) returns `zip([...])`, whose
elements are tuples of lists rather than entities. -/
inductive PyVal where
  | ent (e : Ent)
  | tup (vs : List PyVal)
  | list (vs : List PyVal)
deriving Repr

/-- The key function `lambda ent: getattr(ent, spec.attr_name)` used by
`_asc_op` / `_desc_op` (src/everest/querying/ordering.py lines 239-245),
as an integer key. -/
def getattrKey (a : String) (e : Ent) : Int :=
  (e.attrVal a).getD 0

/-- Stable insertion of an element into a sorted list: the element goes past
every existing element `y` with `le y x`, so it lands after equal keys. -/
def pyInsert (le : Ent → Ent → Bool) (x : Ent) : List Ent → List Ent
  | [] => [x]
  | y :: ys => if le y x then y :: pyInsert le x ys else x :: y :: ys

/-- Python's built-in `sorted` (a stable sort): fold the input from the left,
inserting each element after existing equal-key elements. -/
def pySorted (le : Ent → Ent → Bool) (l : List Ent) : List Ent :=
  l.foldl (fun acc x => pyInsert le x acc) []

/-- Translation of the `KeyFunctionOrderSpecificationVisitor` artifacts
(src/everest/querying/ordering.py lines 228-245), driven over an order
specification tree by the double-dispatch `accept` of the visitor base class
(everest/querying/base.py, not under src/, modelled from spec §4.3: visiting
a node applies the matching `_*_op` to the artifacts of its children):
`_asc_op` emits `lambda entities: sorted(entities, key=key_func)`, `_desc_op`
the same with `reverse=True`, and `_conjunction_op` emits
`lambda entities: zip([order_func(entities) for order_func in expressions])`.
Python 2 `zip` applied to the one-element argument list `[l1, l2]` yields the
list of 1-tuples `[(l1,), (l2,)]`, which is what the conjunction branch
faithfully reproduces. -/
def keyFuncVisit : OrderSpec → List Ent → List PyVal
  | .asc a, entities =>
      (pySorted (fun x y => decide (getattrKey a x ≤ getattrKey a y))
        entities).map PyVal.ent
  | .desc a, entities =>
      (pySorted (fun x y => decide (getattrKey a y ≤ getattrKey a x))
        entities).map PyVal.ent
  | .conj l r, entities =>
      [PyVal.tup [PyVal.list (keyFuncVisit l entities)],
       PyVal.tup [PyVal.list (keyFuncVisit r entities)]]

/-- The three entities of the C8 failing input (attributes `a` and `b`). -/
def entsC8 : List Ent :=
  [⟨some 1, [("a", 1), ("b", 2)]⟩,
   ⟨some 2, [("a", 1), ("b", 1)]⟩,
   ⟨some 3, [("a", 0), ("b", 5)]⟩]

/-- C8: evaluating the in-memory order visitor on the conjunction of
`asc a` and `asc b` over three entities.  The emitted function does not sort
the sequence lexicographically: it returns the two-element list
`[(sorted_by_a,), (sorted_by_b,)]` — two 1-tuples each wrapping a fully,
independently sorted copy of the input — instead of the three-entity
lexicographically sorted permutation `[id 3, id 2, id 1]`.  This exhibits the
`zip([...])` slip in `_conjunction_op`. -/
theorem C8_conjunction_not_lexicographic :
    keyFuncVisit (.conj (.asc "a") (.asc "b")) entsC8
      = [PyVal.tup [PyVal.list
            [PyVal.ent ⟨some 3, [("a", 0), ("b", 5)]⟩,
             PyVal.ent ⟨some 1, [("a", 1), ("b", 2)]⟩,
             PyVal.ent ⟨some 2, [("a", 1), ("b", 1)]⟩]],
         PyVal.tup [PyVal.list
            [PyVal.ent ⟨some 2, [("a", 1), ("b", 1)]⟩,
             PyVal.ent ⟨some 1, [("a", 1), ("b", 2)]⟩,
             PyVal.ent ⟨some 3, [("a", 0), ("b", 5)]⟩]]] ∧
    (keyFuncVisit (.conj (.asc "a") (.asc "b")) entsC8).length = 2 ∧
    entsC8.length = 3 ∧
    keyFuncVisit (.conj (.asc "a") (.asc "b")) entsC8
      ≠ [PyVal.ent ⟨some 3, [("a", 0), ("b", 5)]⟩,
         PyVal.ent ⟨some 2, [("a", 1), ("b", 1)]⟩,
         PyVal.ent ⟨some 1, [("a", 1), ("b", 2)]⟩] := by
  have h1 : keyFuncVisit (.conj (.asc "a") (.asc "b")) entsC8
      = [PyVal.tup [PyVal.list
            [PyVal.ent ⟨some 3, [("a", 0), ("b", 5)]⟩,
             PyVal.ent ⟨some 1, [("a", 1), ("b", 2)]⟩,
             PyVal.ent ⟨some 2, [("a", 1), ("b", 1)]⟩]],
         PyVal.tup [PyVal.list
            [PyVal.ent ⟨some 2, [("a", 1), ("b", 1)]⟩,
             PyVal.ent ⟨some 1, [("a", 1), ("b", 2)]⟩,
             PyVal.ent ⟨some 3, [("a", 0), ("b", 5)]⟩]]] := by rfl
  refine ⟨h1, by rw [h1]; rfl, by rfl, by rw [h1]; simp⟩

/-- An SQLAlchemy attribute expression as used by the SQL order visitor:
either a plain mapped class attribute (`getattr(self.__klass, attr_name)`)
or the expression registered in the visitor's order conditions. -/
inductive SqlAttr where
  | classAttr (name : String)
  | mapped (id : Nat)
deriving DecidableEq, Repr

/-- A pre-registered order condition (`order_conditions[attr_name]`,
src/everest/querying/ordering.py lines 217-222): the join clause to add
(opaque, identified by number) and the attribute expression to use. -/
structure OrderCondition where
  join : Nat
  attr : SqlAttr
deriving DecidableEq, Repr

/-- An element of the SQL order expression tuples built by `_asc_op` /
`_desc_op` (src/everest/querying/ordering.py lines 209-215). -/
inductive SqlOrderExpr where
  | ascOf (a : SqlAttr)
  | descOf (a : SqlAttr)
deriving DecidableEq, Repr

/-- State of a `SqlOrderSpecificationVisitor`
(src/everest/querying/ordering.py lines 190-201): the pre-registered order
conditions and the accumulated join list (`__joins`, initially empty). -/
structure SqlOrderVisitorState where
  order_conditions : List (String × OrderCondition)
  joins : List Nat
deriving DecidableEq, Repr

/-- Translation of `SqlOrderSpecificationVisitor.__get_attr`
(src/everest/querying/ordering.py lines 217-225): a pre-registered condition
contributes its join to `self.__joins` unless that join is already present,
and yields its attribute expression; any other name resolves to the mapped
class attribute. -/
def sqlGetAttr (st : SqlOrderVisitorState) (a : String) :
    SqlOrderVisitorState × SqlAttr :=
  match st.order_conditions.find? (fun p => p.1 == a) with
  | some c =>
      if st.joins.contains c.2.join then (st, c.2.attr)
      else ({ st with joins := st.joins ++ [c.2.join] }, c.2.attr)
  | none => (st, .classAttr a)

/-- The SQL order visitor run over an order specification tree (the
double-dispatch driver of the visitor base class is not under src/ and is
modelled from spec §4.3: visiting a node applies the matching `_*_op` to the
children's results): `_asc_op` / `_desc_op` build one-element tuples and
`_conjunction_op` concatenates the children's tuples (`reduce(add, ...)`,
src/everest/querying/ordering.py lines 206-215), threading the visitor's
mutable state. -/
def sqlVisit (st : SqlOrderVisitorState) :
    OrderSpec → SqlOrderVisitorState × List SqlOrderExpr
  | .asc a => ((sqlGetAttr st a).1, [.ascOf (sqlGetAttr st a).2])
  | .desc a => ((sqlGetAttr st a).1, [.descOf (sqlGetAttr st a).2])
  | .conj l r =>
      let p1 := sqlVisit st l
      let p2 := sqlVisit p1.1 r
      (p2.1, p1.2 ++ p2.2)

/-- A tiny heap of Python list objects (addresses index the cell list), used
to state the aliasing behavior of `get_joins`. -/
structure PyHeap where
  cells : List (List Nat)
deriving DecidableEq, Repr

/-- Allocate a fresh list object holding `v`: the new heap and the fresh
address. -/
def PyHeap.alloc (h : PyHeap) (v : List Nat) : PyHeap × Nat :=
  ({ cells := h.cells ++ [v] }, h.cells.length)

/-- Contents of the list object at address `a`. -/
def PyHeap.read (h : PyHeap) (a : Nat) : List Nat :=
  (h.cells[a]?).getD []

/-- In-place mutation of the list object at address `a`. -/
def PyHeap.write (h : PyHeap) (a : Nat) (v : List Nat) : PyHeap :=
  { cells := h.cells.set a v }

/-- Translation of `SqlOrderSpecificationVisitor.get_joins`
(src/everest/querying/ordering.py lines 203-204): `return self.__joins[:]` —
the full slice allocates a fresh list object with the same elements as the
visitor's internal join list, which lives at address `va`. -/
def get_joins (h : PyHeap) (va : Nat) : PyHeap × Nat :=
  h.alloc (h.read va)

theorem sqlGetAttr_joins_nodup (st : SqlOrderVisitorState) (a : String)
    (h : st.joins.Nodup) : ((sqlGetAttr st a).1.joins).Nodup := by
  unfold sqlGetAttr
  cases hf : st.order_conditions.find? (fun p => p.1 == a) with
  | none => simpa using h
  | some c =>
      by_cases hc : c.2.join ∈ st.joins
      · simpa [hc] using h
      · simp [hc, List.nodup_append, h]

theorem sqlVisit_joins_nodup (o : OrderSpec) (st : SqlOrderVisitorState)
    (h : st.joins.Nodup) : ((sqlVisit st o).1.joins).Nodup := by
  induction o generalizing st with
  | asc a => exact sqlGetAttr_joins_nodup st a h
  | desc a => exact sqlGetAttr_joins_nodup st a h
  | conj l r ihl ihr =>
      simp only [sqlVisit]
      exact ihr _ (ihl _ h)

/-- C10: after visiting any order specification tree from a freshly
constructed SQL order visitor, the accumulated join list holds each
pre-registered join at most once (it is duplicate-free no matter how many
criteria reference attributes mapped to the same join); and `get_joins`
returns a fresh copy, so mutating the returned list object changes neither
the visitor's internal join list nor what a later `get_joins` reports. -/
theorem C10_sql_joins_nodup_and_copied
    (conds : List (String × OrderCondition)) (o : OrderSpec)
    (h : PyHeap) (va : Nat) (hva : va < h.cells.length) (v : List Nat) :
    ((sqlVisit (SqlOrderVisitorState.mk conds []) o).1.joins).Nodup ∧
    (get_joins h va).2 ≠ va ∧
    ((get_joins h va).1.write (get_joins h va).2 v).read va = h.read va ∧
    ((get_joins (((get_joins h va).1.write (get_joins h va).2 v)) va).1.read
        ((get_joins (((get_joins h va).1.write (get_joins h va).2 v)) va).2))
      = h.read va := by
  have hfresh : (get_joins h va).2 = h.cells.length := rfl
  have hne : va ≠ h.cells.length := Nat.ne_of_lt hva
  refine ⟨sqlVisit_joins_nodup o _ List.nodup_nil, ?_, ?_, ?_⟩
  · rw [hfresh]
    exact fun heq => hne heq.symm
  · unfold get_joins PyHeap.alloc PyHeap.write PyHeap.read
    simp only [List.getElem?_set_ne (Ne.symm hne)]
    rw [List.getElem?_append_left hva]
  · unfold get_joins PyHeap.alloc PyHeap.write PyHeap.read
    simp only [List.getElem?_concat_length, Option.getD_some]
    simp only [List.getElem?_set_ne (Ne.symm hne)]
    rw [List.getElem?_append_left hva]

/-- Pre-registered order conditions for the C10 witness: attribute `a` maps
to join 7. -/
def condsC10 : List (String × OrderCondition) := [("a", ⟨7, .mapped 1⟩)]

/-- Order specification for the C10 witness: two criteria referencing the
same mapped attribute. -/
def specC10 : OrderSpec := .conj (.asc "a") (.desc "a")

/-- Heap for the C10 witness: one list object `[5]` at address 0. -/
def heapC10 : PyHeap := ⟨[[5]]⟩

/-- C10 witness: the theorem applied at a concrete visitor (two criteria
through the same join) and a concrete one-cell heap. -/
theorem C10_sql_joins_nodup_and_copied_witness :
    (0 < heapC10.cells.length) ∧
    (((sqlVisit (SqlOrderVisitorState.mk condsC10 []) specC10).1.joins).Nodup ∧
    (get_joins heapC10 0).2 ≠ 0 ∧
    ((get_joins heapC10 0).1.write (get_joins heapC10 0).2 [9]).read 0
      = heapC10.read 0 ∧
    ((get_joins (((get_joins heapC10 0).1.write (get_joins heapC10 0).2
        [9])) 0).1.read
        ((get_joins (((get_joins heapC10 0).1.write (get_joins heapC10 0).2
        [9])) 0).2))
      = heapC10.read 0) :=
  ⟨by decide,
   C10_sql_joins_nodup_and_copied condsC10 specC10 heapC10 0 (by decide) [9]⟩

/-- One comparison-and-swap step of the `while` loop of `BubbleSorter._split`
(src/everest/querying/ordering.py lines 86-94): if
`self._order.lt(lst[j], lst[j-1])`, swap `lst[j]` and `lst[j-1]`. -/
def bubbleStep [Inhabited α] (lt : α → α → Bool) (l : List α) (j : Nat) :
    List α :=
  if lt (l.getD j default) (l.getD (j - 1) default) then
    (l.set j (l.getD (j - 1) default)).set (j - 1) (l.getD j default)
  else l

/-- The `while lo < j` loop of `BubbleSorter._split`: perform the step at
`j`, then decrement `j`. -/
def bubbleSplitLoop [Inhabited α] (lt : α → α → Bool) (l : List α)
    (lo j : Nat) : List α :=
  if lo < j then bubbleSplitLoop lt (bubbleStep lt l j) lo (j - 1)
  else l
termination_by j
decreasing_by omega

/-- Translation of `BubbleSorter._split` (src/everest/querying/ordering.py
lines 86-94): run the bubble pass over `lst[lo..hi]` and return `lo + 1` as
the split index. -/
def bubbleSplit [Inhabited α] (lt : α → α → Bool) (l : List α)
    (lo hi : Nat) : List α × Nat :=
  (bubbleSplitLoop lt l lo hi, lo + 1)

/-- Translation of `SorterTemplate.sort` (src/everest/querying/ordering.py
lines 65-72) as specialized by `BubbleSorter`: when `lo < hi`, split, sort
the two sub-ranges `[lo, s-1]` and `[s, hi]`, then `_join` (a no-op for the
bubble sorter). -/
def sorterSort [Inhabited α] (lt : α → α → Bool) (l : List α)
    (lo hi : Nat) : List α :=
  if lo < hi then
    let p := bubbleSplit lt l lo hi
    let l2 := sorterSort lt p.1 lo (p.2 - 1)
    sorterSort lt l2 p.2 hi
  else l
termination_by hi - lo
decreasing_by
  · simp only [bubbleSplit]
    omega
  · simp only [bubbleSplit]
    omega

/-- `BubbleSorter(order).sort(lst)` with the default bounds `lo = 0` and
`hi = len(lst) - 1` (src/everest/querying/ordering.py lines 65-67). -/
def bubbleSort [Inhabited α] (lt : α → α → Bool) (l : List α) : List α :=
  sorterSort lt l 0 (l.length - 1)

/-- Structural companion of the bubble pass on the segment `a :: l`: the
result of bubbling the minimal element to the front, returned as (front,
rest).  The recursion mirrors the loop of `BubbleSorter._split`: the steps at
larger `j` (inside `l`) happen first, then the final step compares the
segment's first two positions. -/
def bubbleMinHT (lt : α → α → Bool) (a : α) : List α → α × List α
  | [] => (a, [])
  | b :: rest =>
      let p := bubbleMinHT lt b rest
      if lt p.1 a then (p.1, a :: p.2) else (a, p.1 :: p.2)

theorem bubbleMinHT_length (lt : α → α → Bool) (a : α) (l : List α) :
    (bubbleMinHT lt a l).2.length = l.length := by
  induction l generalizing a with
  | nil => rfl
  | cons b rest ih =>
      simp only [bubbleMinHT]
      by_cases h : lt (bubbleMinHT lt b rest).1 a = true <;>
        simp [h, ih]

/-- Structural companion of the bubble sort recursion: bubble the minimum to
the front of the segment, then sort the rest. -/
def bubbleSortList (lt : α → α → Bool) : List α → List α
  | [] => []
  | a :: rest =>
      (bubbleMinHT lt a rest).1 ::
        bubbleSortList lt (bubbleMinHT lt a rest).2
termination_by l => l.length
decreasing_by
  simp [bubbleMinHT_length]

theorem bubbleStep_cons [Inhabited α] (lt : α → α → Bool) (p : α)
    (l : List α) (i : Nat) :
    bubbleStep lt (p :: l) (i + 1 + 1) = p :: bubbleStep lt l (i + 1) := by
  simp only [bubbleStep, List.getD_cons_succ, Nat.add_sub_cancel,
    List.set_cons_succ]
  split <;> rfl

theorem bubbleStep_at [Inhabited α] (lt : α → α → Bool) (pre post : List α)
    (x y : α) :
    bubbleStep lt (pre ++ x :: y :: post) (pre.length + 1)
      = pre ++ (if lt y x then y :: x :: post else x :: y :: post) := by
  induction pre with
  | nil =>
      simp only [List.nil_append, List.length_nil, Nat.zero_add]
      by_cases h : lt y x = true <;>
        simp [bubbleStep, h, List.getD_cons_succ, List.getD_cons_zero]
  | cons p pre ih =>
      simp only [List.cons_append, List.length_cons]
      rw [bubbleStep_cons, ih]


theorem bubbleSplitLoop_peel [Inhabited α] (lt : α → α → Bool) (lo : Nat)
    (j : Nat) (hj : lo < j) (l : List α) :
    bubbleSplitLoop lt l lo j
      = bubbleStep lt (bubbleSplitLoop lt l (lo + 1) j) (lo + 1) := by
  induction j using Nat.strong_induction_on generalizing l with
  | _ j ihj =>
      rw [bubbleSplitLoop, if_pos hj]
      by_cases h2 : lo + 1 < j
      · rw [ihj (j - 1) (by omega) (by omega) (bubbleStep lt l j)]
        have hr : bubbleSplitLoop lt l (lo + 1) j
            = bubbleSplitLoop lt (bubbleStep lt l j) (lo + 1) (j - 1) := by
          rw [bubbleSplitLoop, if_pos h2]
        rw [hr]
      · have hj1 : j = lo + 1 := by omega
        subst hj1
        rw [bubbleSplitLoop, if_neg (by omega)]
        have hr : bubbleSplitLoop lt l (lo + 1) (lo + 1)
            = l := by
          rw [bubbleSplitLoop, if_neg (by omega)]
        rw [hr]

theorem bubbleSplitLoop_seg [Inhabited α] (lt : α → α → Bool)
    (rest : List α) (a : α) (pre post : List α) :
    bubbleSplitLoop lt (pre ++ a :: rest ++ post) pre.length
        (pre.length + rest.length)
      = pre ++ (bubbleMinHT lt a rest).1 :: (bubbleMinHT lt a rest).2
          ++ post := by
  induction rest generalizing a pre with
  | nil =>
      rw [bubbleSplitLoop, if_neg (by simp)]
      rfl
  | cons b rest ih =>
      rw [bubbleSplitLoop_peel lt pre.length (pre.length + (b :: rest).length)
        (by simp) (pre ++ a :: (b :: rest) ++ post)]
      have hl : pre ++ a :: (b :: rest) ++ post
          = (pre ++ [a]) ++ b :: rest ++ post := by simp
      have hn : pre.length + (b :: rest).length
          = (pre ++ [a]).length + rest.length := by simp; omega
      have hplus : pre.length + 1 = (pre ++ [a]).length := by simp
      rw [hl, hn, hplus, ih b (pre ++ [a])]
      have hl2 : (pre ++ [a]) ++ (bubbleMinHT lt b rest).1 ::
          (bubbleMinHT lt b rest).2 ++ post
          = pre ++ a :: (bubbleMinHT lt b rest).1 ::
              ((bubbleMinHT lt b rest).2 ++ post) := by simp
      rw [← hplus, hl2, bubbleStep_at]
      by_cases h : lt (bubbleMinHT lt b rest).1 a = true <;>
        simp [bubbleMinHT, h]

theorem sorterSort_seg [Inhabited α] (lt : α → α → Bool)
    (n : Nat) (seg pre post : List α) (hlen : seg.length = n) :
    sorterSort lt (pre ++ seg ++ post) pre.length
        (pre.length + seg.length - 1)
      = pre ++ bubbleSortList lt seg ++ post := by
  induction n using Nat.strong_induction_on generalizing seg pre post with
  | _ n ihn =>
      cases seg with
      | nil =>
          rw [sorterSort, if_neg (by simp)]
          simp [bubbleSortList]
      | cons a rest =>
          cases rest with
          | nil =>
              rw [sorterSort, if_neg (by simp)]
              simp [bubbleSortList, bubbleMinHT]
          | cons b rest2 =>
              simp only [List.length_cons] at hlen
              rw [sorterSort, if_pos (by simp)]
              simp only [bubbleSplit]
              have hinner : ∀ l2 : List α,
                  sorterSort lt l2 pre.length (pre.length + 1 - 1) = l2 := by
                intro l2
                rw [sorterSort, if_neg (by omega)]
              rw [hinner]
              have hhi : pre.length + (a :: b :: rest2).length - 1
                  = pre.length + (b :: rest2).length := by
                simp
              rw [hhi, bubbleSplitLoop_seg lt (b :: rest2) a pre post]
              have hsplit : pre ++ (bubbleMinHT lt a (b :: rest2)).1 ::
                  (bubbleMinHT lt a (b :: rest2)).2 ++ post
                  = (pre ++ [(bubbleMinHT lt a (b :: rest2)).1]) ++
                      (bubbleMinHT lt a (b :: rest2)).2 ++ post := by
                simp
              have hlo : pre.length + 1
                  = (pre ++ [(bubbleMinHT lt a (b :: rest2)).1]).length := by
                simp
              have hhi2 : pre.length + (b :: rest2).length
                  = (pre ++ [(bubbleMinHT lt a (b :: rest2)).1]).length +
                      (bubbleMinHT lt a (b :: rest2)).2.length - 1 := by
                simp [bubbleMinHT_length]
                omega
              rw [hsplit, hlo, hhi2,
                ihn ((bubbleMinHT lt a (b :: rest2)).2.length)
                  (by simp only [bubbleMinHT_length, List.length_cons]; omega)
                  (bubbleMinHT lt a (b :: rest2)).2
                  (pre ++ [(bubbleMinHT lt a (b :: rest2)).1]) post rfl]
              rw [bubbleSortList]
              simp


theorem bubbleSort_eq_bubbleSortList [Inhabited α] (lt : α → α → Bool)
    (l : List α) : bubbleSort lt l = bubbleSortList lt l := by
  have h := sorterSort_seg lt l.length l [] [] rfl
  simpa [bubbleSort] using h

theorem bubbleMinHT_perm (lt : α → α → Bool) (a : α) (l : List α) :
    ((bubbleMinHT lt a l).1 :: (bubbleMinHT lt a l).2).Perm (a :: l) := by
  induction l generalizing a with
  | nil => exact List.Perm.refl _
  | cons b rest ih =>
      simp only [bubbleMinHT]
      by_cases h : lt (bubbleMinHT lt b rest).1 a = true
      · simp only [h, if_true]
        exact (List.Perm.swap a (bubbleMinHT lt b rest).1 _).trans
          ((ih b).cons a)
      · simp only [h, if_false]
        exact (ih b).cons a

theorem bubbleMinHT_min (lt : α → α → Bool)
    (hasym : ∀ x y, lt x y = true → lt y x = false)
    (hco : ∀ x y z, lt y x = false → lt z y = false → lt z x = false)
    (a : α) (l : List α) :
    ∀ y ∈ (bubbleMinHT lt a l).2, lt y (bubbleMinHT lt a l).1 = false := by
  induction l generalizing a with
  | nil =>
      intro y hy
      simp [bubbleMinHT] at hy
  | cons b rest ih =>
      intro y hy
      simp only [bubbleMinHT] at hy ⊢
      by_cases h : lt (bubbleMinHT lt b rest).1 a = true
      · simp only [h, if_true] at hy ⊢
        rcases List.mem_cons.mp hy with rfl | hy2
        · exact hasym _ _ h
        · exact ih b y hy2
      · have hf : lt (bubbleMinHT lt b rest).1 a = false := by
          simpa using h
        simp only [h, if_false] at hy ⊢
        rcases List.mem_cons.mp hy with rfl | hy2
        · exact hf
        · exact hco a (bubbleMinHT lt b rest).1 y hf (ih b y hy2)

theorem bubbleSortList_perm (lt : α → α → Bool) (l : List α) :
    (bubbleSortList lt l).Perm l := by
  have main : ∀ n (l : List α), l.length = n →
      (bubbleSortList lt l).Perm l := by
    intro n
    induction n using Nat.strong_induction_on with
    | _ n ihn =>
        intro l hn
        cases l with
        | nil => simp [bubbleSortList]
        | cons a rest =>
            simp only [List.length_cons] at hn
            rw [bubbleSortList]
            have h1 : (bubbleSortList lt (bubbleMinHT lt a rest).2).Perm
                (bubbleMinHT lt a rest).2 :=
              ihn (bubbleMinHT lt a rest).2.length
                (by simp [bubbleMinHT_length]; omega) _ rfl
            exact (h1.cons _).trans (bubbleMinHT_perm lt a rest)
  exact main l.length l rfl

theorem bubbleSortList_chain (lt : α → α → Bool)
    (hasym : ∀ x y, lt x y = true → lt y x = false)
    (hco : ∀ x y z, lt y x = false → lt z y = false → lt z x = false)
    (l : List α) :
    List.Chain' (fun x y => lt y x = false) (bubbleSortList lt l) := by
  have main : ∀ n (l : List α), l.length = n →
      List.Chain' (fun x y => lt y x = false) (bubbleSortList lt l) := by
    intro n
    induction n using Nat.strong_induction_on with
    | _ n ihn =>
        intro l hn
        cases l with
        | nil => simp [bubbleSortList]
        | cons a rest =>
            simp only [List.length_cons] at hn
            rw [bubbleSortList, List.chain'_cons']
            constructor
            · intro y hy
              have hymem : y ∈ bubbleSortList lt (bubbleMinHT lt a rest).2 :=
                List.mem_of_mem_head? hy
              have hy2 : y ∈ (bubbleMinHT lt a rest).2 :=
                (bubbleSortList_perm lt _).mem_iff.mp hymem
              exact bubbleMinHT_min lt hasym hco a rest y hy2
            · exact ihn (bubbleMinHT lt a rest).2.length
                (by simp [bubbleMinHT_length]; omega) _ rfl
  exact main l.length l rfl

theorem chain'_getElem? {α : Type u_1} {R : α → α → Prop} {l : List α}
    (h : List.Chain' R l) (i : Nat) (x y : α)
    (hx : l[i]? = some x) (hy : l[i + 1]? = some y) : R x y := by
  have hi1 : i + 1 < l.length := by
    by_contra hc
    rw [List.getElem?_eq_none (by omega)] at hy
    exact Option.noConfusion hy
  have hi : i < l.length := by omega
  rw [List.getElem?_eq_getElem hi] at hx
  rw [List.getElem?_eq_getElem hi1] at hy
  have hx2 : l[i] = x := Option.some_inj.mp hx
  have hy2 : l[i + 1] = y := Option.some_inj.mp hy
  have hg := List.chain'_iff_get.mp h i (by omega)
  simp only [List.get_eq_getElem] at hg
  rw [hx2, hy2] at hg
  exact hg

/-- C9: for every finite list and every order whose strict comparison `lt` is
asymmetric and has a transitive complement, `BubbleSorter(order).sort(lst)`
terminates (the embedding is a total function), leaves the list a permutation
of its initial contents, and in the result no element at position `i+1`
satisfies `lt` with respect to the element at position `i`. -/
theorem C9_bubble_sorter_sorts [Inhabited α] (lt : α → α → Bool)
    (hasym : ∀ x y, lt x y = true → lt y x = false)
    (hco : ∀ x y z, lt y x = false → lt z y = false → lt z x = false)
    (l : List α) :
    (bubbleSort lt l).Perm l ∧
    (∀ i x y, (bubbleSort lt l)[i]? = some x →
      (bubbleSort lt l)[i + 1]? = some y → lt y x = false) := by
  rw [bubbleSort_eq_bubbleSortList]
  refine ⟨bubbleSortList_perm lt l, ?_⟩
  intro i x y hx hy
  exact chain'_getElem? (bubbleSortList_chain lt hasym hco l) i x y hx hy

/-- The strict comparison on integers used by the C9 witness. -/
def ltInt (a b : Int) : Bool := decide (a < b)

/-- C9 witness: the theorem applied to the integer order and the concrete
list `[3, 1, 2]`, together with the concrete evaluation of the sort. -/
theorem C9_bubble_sorter_sorts_witness :
    (∀ x y : Int, ltInt x y = true → ltInt y x = false) ∧
    (∀ x y z : Int, ltInt y x = false → ltInt z y = false →
      ltInt z x = false) ∧
    (bubbleSort ltInt [3, 1, 2]).Perm [3, 1, 2] ∧
    (∀ i x y, (bubbleSort ltInt [3, 1, 2])[i]? = some x →
      (bubbleSort ltInt [3, 1, 2])[i + 1]? = some y → ltInt y x = false) ∧
    bubbleSort ltInt [3, 1, 2] = [1, 2, 3] := by
  have h1 : ∀ x y : Int, ltInt x y = true → ltInt y x = false := by
    intro x y h
    simp only [ltInt, decide_eq_true_eq] at h
    simp only [ltInt, decide_eq_false_iff_not]
    omega
  have h2 : ∀ x y z : Int, ltInt y x = false → ltInt z y = false →
      ltInt z x = false := by
    intro x y z hyx hzy
    simp only [ltInt, decide_eq_false_iff_not] at hyx hzy ⊢
    omega
  refine ⟨h1, h2, (C9_bubble_sorter_sorts ltInt h1 h2 [3, 1, 2]).1,
    (C9_bubble_sorter_sorts ltInt h1 h2 [3, 1, 2]).2, ?_⟩
  rw [bubbleSort_eq_bubbleSortList]
  simp [bubbleSortList, bubbleMinHT, ltInt]

end Everest
